import Mathlib

/-!
Shallow embedding of the `ekspods` backend (a FastAPI service driving
`eksctl`/`kubectl` to run distributed JMeter load tests on EKS), together
with theorems settling the specification claims about it.

Modelling conventions:
* Python strings that the code computes on (sorts, lowercases, strips,
  searches) are modelled as `List Char` (`Str`), whose lexicographic
  comparison by code points matches Python string comparison exactly.
  Opaque strings that are only passed along (pod names, error messages)
  stay `String`.
* Each shell-out to an external tool is modelled by an environment field
  holding that tool's response (`Except` for calls that can fail), and
  stateful handlers additionally return the trace of commands issued.
-/

/-- Python strings as code-point lists. -/
abbrev Str := List Char

/-- Literal helper: the code points of a string literal. -/
def str (s : String) : Str := s.data

/-- Lexicographic `<=` on code-point lists; Python's string comparison. -/
def strLe : Str → Str → Bool
  | [], _ => true
  | _ :: _, [] => false
  | a :: s, b :: t =>
    if a < b then true
    else if a = b then strLe s t
    else false

theorem strLe_refl (s : Str) : strLe s s = true := by
  induction s with
  | nil => rfl
  | cons a t ih => simp [strLe, ih]

theorem strLe_total (a b : Str) : (strLe a b || strLe b a) = true := by
  induction a generalizing b with
  | nil => simp [strLe]
  | cons x s ih =>
    cases b with
    | nil => simp [strLe]
    | cons y t =>
      rcases lt_trichotomy x y with h | h | h
      · simp [strLe, h, asymm h, ne_of_gt h, ne_of_lt h]
      · subst h
        simpa [strLe, lt_irrefl] using ih t
      · simp [strLe, h, asymm h, ne_of_gt h, ne_of_lt h]

theorem strLe_trans {a b c : Str} (hab : strLe a b = true) (hbc : strLe b c = true) :
    strLe a c = true := by
  induction a generalizing b c with
  | nil => rfl
  | cons x s ih =>
    cases b with
    | nil => simp [strLe] at hab
    | cons y t =>
      cases c with
      | nil => simp [strLe] at hbc
      | cons z u =>
        simp only [strLe] at hab hbc ⊢
        rcases lt_trichotomy x y with hxy | hxy | hxy
        · rcases lt_trichotomy y z with hyz | hyz | hyz
          · simp [lt_trans hxy hyz]
          · subst hyz; simp [hxy]
          · simp [asymm hyz, ne_of_gt hyz, ne_of_lt hyz] at hbc
        · subst hxy
          rcases lt_trichotomy x z with hyz | hyz | hyz
          · simp [hyz]
          · subst hyz
            simp only [lt_irrefl, if_false, if_pos rfl] at hab hbc ⊢
            exact ih hab hbc
          · simp [asymm hyz, ne_of_gt hyz, ne_of_lt hyz] at hbc
        · simp [asymm hxy, ne_of_gt hxy, ne_of_lt hxy] at hab

namespace AwsUtils

/-- Source `aws_cfg = Config(retries={'max_attempts': 4})`: every boto3 client in
`aws_utils.py` is built with a 4-attempt retry configuration. -/
def aws_cfg_max_attempts : Nat := 4

/-- Source `list_regions`: on a provider error the exception is caught and `[]`
is returned; otherwise the region names of the response. -/
def list_regions (resp : Except String (List Str)) : List Str :=
  match resp with
  | .ok regions => regions
  | .error _ => []

/-- One entry collected from `describe_instance_types` pagination:
`{"type": ..., "arch": ...}`. -/
structure InstanceItem where
  itype : Str
  arch : List Str
deriving DecidableEq

/-- Source `family`: the leading `[a-z]+` match of the type name
(`re.match(r"([a-z]+)")`), or the whole name when there is no match. -/
def family (instType : Str) : Str :=
  let m := instType.takeWhile (fun c => decide ('a' ≤ c) && decide (c ≤ 'z'))
  if m.isEmpty then instType else m

/-- Source `sorted(grouped.keys())`. -/
def sortKeys (keys : List Str) : List Str := keys.mergeSort strLe

/-- Source `sorted(grouped[fam], key=lambda x: x["type"])`. -/
def sortByType (l : List InstanceItem) : List InstanceItem :=
  l.mergeSort (fun a b => strLe a.itype b.itype)

/-- The distinct keys of the `grouped` dict built by `setdefault`
(insertion order; the order is irrelevant because they are sorted next). -/
def groupKeys (items : List InstanceItem) : List Str :=
  (items.map (fun it => family it.itype)).dedup

/-- Source `list_instance_types`: `[]` on a provider error, otherwise the items
grouped by family, families in ascending order, each group sorted by the
full type string. -/
def list_instance_types (resp : Except String (List InstanceItem)) : List InstanceItem :=
  match resp with
  | .error _ => []
  | .ok items =>
    (sortKeys (groupKeys items)).flatMap
      (fun fam => sortByType (items.filter (fun it => family it.itype == fam)))

/-- An image of a `describe_images` response (absent `Name`/`Architecture`/
`CreationDate` keys are read with default `""` by the code). -/
structure AmiImage where
  imageId : Str
  name : Str
  architecture : Str
  creationDate : Str
deriving DecidableEq

/-- The dict built for each retained image in `list_amis`. -/
structure AmiEntry where
  image_id : Str
  name : Str
  arch : Str
  date : Str
deriving DecidableEq

/-- Projection of an image to its output dict. -/
def amiEntryOf (img : AmiImage) : AmiEntry :=
  ⟨img.imageId, img.name, img.architecture, img.creationDate⟩

/-- Source `list_amis`: `[]` on a provider error; otherwise sort by `CreationDate`
descending (`sorted(..., reverse=True)`, a stable sort) and keep the first
50 (`images[:50]`). -/
def list_amis (resp : Except String (List AmiImage)) : List AmiEntry :=
  match resp with
  | .error _ => []
  | .ok images =>
    ((images.mergeSort (fun a b => strLe b.creationDate a.creationDate)).take 50).map
      amiEntryOf

/-- The single `describe_instance_types` item used by `get_instance_info`. -/
structure InstanceTypeInfo where
  vcpus : Nat
  memSizeMiB : Nat
  arch : List Str
deriving DecidableEq

/-- The dict `get_instance_info` returns on success.  The memory size is
kept in MiB; the code also renders it as `round(mem_mib / 1024, 2)` GiB,
a float-formatting step that is presentation only. -/
structure InstanceInfo where
  instance_type : Str
  vcpus : Nat
  memSizeMiB : Nat
  arch : Str
deriving DecidableEq

/-- Source `get_instance_info`: `None` on a provider error, otherwise the info
dict (`arch[0]` with the code's `["x86_64"]` default for a missing key). -/
def get_instance_info (instanceType : Str) (resp : Except String InstanceTypeInfo) :
    Option InstanceInfo :=
  match resp with
  | .error _ => none
  | .ok it => some ⟨instanceType, it.vcpus, it.memSizeMiB, it.arch.headD (str "x86_64")⟩

/-- The image fields `detect_os_family` reads (`.get` defaults `""`). -/
structure ImageDesc where
  name : Str
  description : Str
deriving DecidableEq

/-- Python `str.lower()` on the ASCII text the code handles. -/
def toLowerStr (s : Str) : Str := s.map Char.toLower

/-- Source `(img.get("Name", "") + " " + img.get("Description", "")).lower()`. -/
def osText (img : ImageDesc) : Str := toLowerStr (img.name ++ str " " ++ img.description)

/-- Source `detect_os_family`: `"Unknown"` when the image lookup raises, else
`"AmazonLinux2023"` iff one of the three markers occurs in the lowered
name-and-description text. -/
def detect_os_family (resp : Except String ImageDesc) : Str :=
  match resp with
  | .error _ => str "Unknown"
  | .ok img =>
    if decide (str "amazon-eks-node" <:+: osText img)
        || decide (str "amazon linux 2023" <:+: osText img)
        || decide (str "al2023" <:+: osText img)
    then str "AmazonLinux2023"
    else str "Unknown"

end AwsUtils

namespace EKSJMeterManager

/-- The default namespaces of `EKSJMeterManager.__init__`. -/
def defaultJmeterNamespace : Str := str "jmeter"

/-- The default monitoring namespace of `EKSJMeterManager.__init__`. -/
def defaultMonitoringNamespace : Str := str "monitoring"

/-- Source `Path(name).name`: the part of the path after the last `/`. -/
def basename (s : Str) : Str :=
  s.foldl (fun acc c => if c = '/' then [] else acc ++ [c]) []

/-- The suffix-stripping loop of `_is_cluster_scoped_template`: the first
matching suffix among `.yaml.j2`, `.yml.j2`, `.yaml`, `.yml` is removed. -/
def stripTemplateSuffix (base : Str) : Str :=
  if (str ".yaml.j2").isSuffixOf base then base.take (base.length - 8)
  else if (str ".yml.j2").isSuffixOf base then base.take (base.length - 7)
  else if (str ".yaml").isSuffixOf base then base.take (base.length - 5)
  else if (str ".yml").isSuffixOf base then base.take (base.length - 4)
  else base

/-- Source `EKSJMeterManager._is_cluster_scoped_template`. -/
def _is_cluster_scoped_template (name : Str) : Bool :=
  let base := stripTemplateSuffix (basename name)
  base == str "storageclass" || base == str "storageclass-and-pvcs"

/-- The fixed template list of `apply_jmeter_manifests`. -/
def template_files : List Str :=
  [ str "storageclass-and-pvcs.yaml",
    str "jmeter-configmap.yaml.j2",
    str "jmeter-master-deployment.yaml.j2",
    str "jmeter-master-service.yaml.j2",
    str "jmeter-slaves-statefulset.yaml.j2",
    str "jmeter-slaves-service.yaml.j2",
    str "jmeter-slaves-hpa.yaml.j2",
    str "monitor-influx.yaml.j2",
    str "monitor-grafana.yaml.j2" ]

/-- Source `apply_jmeter_manifests`: skip templates whose file does not exist,
apply cluster-scoped templates with no namespace, `monitor-*` templates to
the monitoring namespace, and everything else to the jmeter namespace.
The result lists each performed `kubectl apply` as (template, namespace). -/
def apply_jmeter_manifests (jmeterNs monitoringNs : Str) (tplExists : Str → Bool) :
    List (Str × Option Str) :=
  template_files.filterMap (fun f =>
    if tplExists f then
      some (f,
        if _is_cluster_scoped_template f then none
        else if (str "monitor-").isPrefixOf f then some monitoringNs
        else some jmeterNs)
    else none)

/-- Source `_wait_for_kube_ready`'s polling loop.  `probe t` is the success of
`kubectl get nodes` at `t` seconds after the start; a failed probe is
retried 5 seconds later (`time.sleep(5)`) unless the elapsed time already
exceeds the timeout, in which case `TimeoutError` is raised.  The second
component records the times at which the probe was invoked. -/
def kubeReadyLoop (probe : Nat → Bool) (timeout elapsed : Nat) :
    Except String Unit × List Nat :=
  if probe elapsed then (.ok (), [elapsed])
  else if timeout < elapsed then
    (.error "Timeout waiting for EKS cluster to be ready", [elapsed])
  else
    let r := kubeReadyLoop probe timeout (elapsed + 5)
    (r.1, elapsed :: r.2)
termination_by timeout + 1 - elapsed
decreasing_by omega

/-- Source `EKSJMeterManager._wait_for_kube_ready(timeout=300)`. -/
def _wait_for_kube_ready (probe : Nat → Bool) (timeout : Nat := 300) :
    Except String Unit × List Nat :=
  kubeReadyLoop probe timeout 0

/-- One external command issued by the run-test flow. -/
inductive KEvent where
  /-- Source `kubectl delete pod -l app=jmeter-slaves` (result ignored). -/
  | deleteSlavePods
  /-- Source `kubectl scale statefulset jmeter-slaves --replicas=n`. -/
  | scaleSlaves (replicas : Nat)
  /-- Source `kubectl wait --for=condition=Ready pod/jmeter-slaves-i`. -/
  | waitSlavePod (i : Nat)
  /-- Source `kubectl get pods -l app=jmeter-master -o jsonpath=...`. -/
  | getMasterPod
  /-- Source `ls -1 /testplans/*.jmx` in the master container. -/
  | listTestplans
  /-- Source `echo RUNNING > /tmp/test_status && rm -f /tmp/run_test && touch /tmp/run_test`. -/
  | triggerRun
  /-- Source `rm -f /tmp/test_status` issued by `_reset_status`. -/
  | resetStatusFile
deriving DecidableEq

/-- Responses of the external tools during one `/test/run` request. -/
structure RunEnv where
  /-- whether `kubectl scale` exits 0. -/
  scaleOk : Bool
  /-- whether `kubectl wait` on `jmeter-slaves-i` exits 0. -/
  waitOk : Nat → Bool
  /-- the master pod name `get_pod_name` resolves (`None` when absent). -/
  masterPod : Option String
  /-- stdout of the testplan listing (only logged). -/
  lsOut : Str
  /-- exit code of the trigger command. -/
  triggerRc : Int

/-- Source `wait_for_slaves`' loop from pod index `i`, `n` pods remaining: each
`kubectl wait` is issued in order and a failure raises immediately. -/
def waitForSlavesFrom (waitOk : Nat → Bool) : Nat → Nat → Except String Unit × List KEvent
  | _, 0 => (.ok (), [])
  | i, n + 1 =>
    if waitOk i then
      let r := waitForSlavesFrom waitOk (i + 1) n
      (r.1, .waitSlavePod i :: r.2)
    else
      (.error "kubectl wait failed", [.waitSlavePod i])

/-- Source `EKSJMeterManager.wait_for_slaves(replicas)`. -/
def wait_for_slaves (waitOk : Nat → Bool) (replicas : Nat) :
    Except String Unit × List KEvent :=
  waitForSlavesFrom waitOk 0 replicas

/-- Source `EKSJMeterManager.run_test(max_shards)`: delete old slave pods, scale
the statefulset, wait for each slave pod, resolve the master pod, list the
testplans, then signal the master's entrypoint.  Returns the outcome and
the trace of commands issued. -/
def run_test (env : RunEnv) (maxShards : Nat) : Except String Unit × List KEvent :=
  let tr1 : List KEvent := [.deleteSlavePods, .scaleSlaves maxShards]
  if !env.scaleOk then (.error "kubectl scale failed", tr1)
  else
    let w := wait_for_slaves env.waitOk maxShards
    match w.1 with
    | .error e => (.error e, tr1 ++ w.2)
    | .ok () =>
      match env.masterPod with
      | none => (.error "JMeter master pod NOT found", tr1 ++ w.2 ++ [.getMasterPod])
      | some _ =>
        let tr := tr1 ++ w.2 ++ [.getMasterPod, .listTestplans, .triggerRun]
        if env.triggerRc != 0 then
          (.error "Failed to trigger JMeter in master", tr)
        else
          (.ok (), tr)

/-- The environment a status read sees. -/
structure StatusEnv where
  /-- the master pod `get_pod_name` resolves. -/
  masterPod : Option String
  /-- the content of `/tmp/test_status` on the master (`none` = absent). -/
  statusFile : Option Str
deriving DecidableEq

/-- Python `str.strip()`: drop whitespace from both ends. -/
def strip (s : Str) : Str :=
  ((s.dropWhile Char.isWhitespace).reverse.dropWhile Char.isWhitespace).reverse

/-- stdout of `cat /tmp/test_status 2>/dev/null || echo FALLBACK`: the file
content when the file exists, otherwise the fallback plus echo's newline. -/
def catStatusOut (statusFile : Option Str) (fallback : Str) : Str :=
  match statusFile with
  | some content => content
  | none => fallback ++ str "\n"

/-- Source `EKSJMeterManager.get_status`. -/
def get_status (env : StatusEnv) : Str :=
  match env.masterPod with
  | none => str "UNKNOWN"
  | some _ => strip (catStatusOut env.statusFile (str "UNKNOWN"))

end EKSJMeterManager

namespace Main

open EKSJMeterManager

/-- The status-file convention: `RUNNING`/`FINISHED`/`ERROR`/`UNKNOWN`. -/
def statusValues : List Str :=
  [str "RUNNING", str "FINISHED", str "ERROR", str "UNKNOWN"]

/-- Source `GET /test/status`: 500 `Master pod not found` when the master pod is
absent, otherwise the stripped output of
`cat /tmp/test_status 2>/dev/null || echo RUNNING`. -/
def api_status (env : StatusEnv) : Except (Nat × String) Str :=
  match env.masterPod with
  | none => .error (500, "Master pod not found")
  | some _ => .ok (strip (catStatusOut env.statusFile (str "RUNNING")))

/-- Source `GET /grafana/url`: the bare `except:` maps every failure of the
`kubectl get svc grafana` lookup to a fixed 500 `Grafana not ready yet`;
on success the hostname is interpolated into the dashboard URL. -/
def grafana (kubectlOut : Except String Str) : Except (Nat × String) Str :=
  match kubectlOut with
  | .ok host => .ok (str "http://" ++ strip host ++ str ":3000/d/jmeter-dashboard")
  | .error _ => .error (500, "Grafana not ready yet")

/-- Python truthiness of `data.get(...)`: present and non-empty. -/
def truthy (o : Option Str) : Bool :=
  match o with
  | none => false
  | some s => !s.isEmpty

/-- Results of the external steps driven by `POST /eks/create`. -/
structure CreateEnv where
  /-- outcome of `manager.create_cluster` (eksctl + readiness + namespaces). -/
  createCluster : Except String Unit
  /-- outcome of `manager.apply_jmeter_manifests`. -/
  applyManifests : Except String Unit

/-- Source `POST /eks/create`: 400 when `AWS_REGION`/`NODE_INSTANCE_TYPE` are
falsy, otherwise any exception of the try block surfaces as a 500 whose
detail is the raw `str(e)`. -/
def api_eks_create (region nodeType : Option Str) (env : CreateEnv) :
    Except (Nat × String) Str :=
  if !(truthy region && truthy nodeType) then
    .error (400, "AWS_REGION and NODE_INSTANCE_TYPE are required")
  else
    match env.createCluster with
    | .error e => .error (500, e)
    | .ok () =>
      match env.applyManifests with
      | .error e => .error (500, e)
      | .ok () => .ok (str "Cluster creation started")

/-- Source `_reset_status`: resolve the master pod and, when present, issue
`rm -f /tmp/test_status` (its outcome is ignored). -/
def _reset_status (env : RunEnv) : List KEvent :=
  match env.masterPod with
  | none => [.getMasterPod]
  | some _ => [.getMasterPod, .resetStatusFile]

/-- Source `POST /test/run`: `_reset_status()` then `manager.run_test(shards)`;
an exception surfaces as 500 with the raw message.  The second component
is the trace of commands the request issued against the cluster. -/
def api_run (env : RunEnv) (shards : Nat) : Except (Nat × String) Str × List KEvent :=
  let tr0 := _reset_status env
  let r := run_test env shards
  match r.1 with
  | .ok () => (.ok (str "Test started with " ++ (toString shards).data ++ str " shard(s)"),
               tr0 ++ r.2)
  | .error e => (.error (500, e), tr0 ++ r.2)

/-- Whether a command reads or writes `/tmp/test_status`. -/
def touchesStatusFile : KEvent → Bool
  | .resetStatusFile => true
  | .triggerRun => true
  | _ => false

end Main

namespace EKSJMeterManager

theorem waitForSlavesFrom_trace_shape (w : Nat → Bool) :
    ∀ n i, ∃ k, k ≤ n ∧
      (waitForSlavesFrom w i n).2 = (List.range' i k).map KEvent.waitSlavePod := by
  intro n
  induction n with
  | zero => exact fun i => ⟨0, le_refl 0, rfl⟩
  | succ n ih =>
    intro i
    by_cases hw : w i
    · obtain ⟨k, hk, htr⟩ := ih (i + 1)
      refine ⟨k + 1, by omega, ?_⟩
      simp [waitForSlavesFrom, hw, htr, List.range'_succ]
    · exact ⟨1, by omega, by simp [waitForSlavesFrom, hw, List.range'_succ]⟩

theorem mem_waitForSlavesFrom_trace {w : Nat → Bool} {n i : Nat} {e : KEvent}
    (he : e ∈ (waitForSlavesFrom w i n).2) : ∃ j, e = KEvent.waitSlavePod j := by
  obtain ⟨k, -, htr⟩ := waitForSlavesFrom_trace_shape w n i
  rw [htr] at he
  obtain ⟨j, -, rfl⟩ := List.mem_map.mp he
  exact ⟨j, rfl⟩

theorem waitForSlavesFrom_ok_trace {w : Nat → Bool} :
    ∀ {n i}, (waitForSlavesFrom w i n).1 = .ok () →
      (waitForSlavesFrom w i n).2 = (List.range' i n).map KEvent.waitSlavePod := by
  intro n
  induction n with
  | zero => intro i _; rfl
  | succ n ih =>
    intro i hok
    by_cases hw : w i
    · simp only [waitForSlavesFrom, hw, if_true] at hok ⊢
      rw [List.range'_succ]
      simp [ih hok]
    · simp [waitForSlavesFrom, hw] at hok

theorem waitForSlavesFrom_ok_waitOk {w : Nat → Bool} :
    ∀ {n i}, (waitForSlavesFrom w i n).1 = .ok () →
      ∀ j, i ≤ j → j < i + n → w j = true := by
  intro n
  induction n with
  | zero => intro i _ j h1 h2; omega
  | succ n ih =>
    intro i hok j h1 h2
    by_cases hw : w i
    · simp only [waitForSlavesFrom, hw, if_true] at hok
      rcases eq_or_lt_of_le h1 with rfl | hlt
      · exact hw
      · exact ih hok j hlt (by omega)
    · simp [waitForSlavesFrom, hw] at hok

/-- The four possible command traces of `run_test`, by which external step
fails first. -/
theorem run_test_trace_cases (env : RunEnv) (n : Nat) :
    (env.scaleOk = false ∧
      (run_test env n).2 = [.deleteSlavePods, .scaleSlaves n]) ∨
    (env.scaleOk = true ∧ (∃ e, (wait_for_slaves env.waitOk n).1 = .error e) ∧
      (run_test env n).2 =
        [.deleteSlavePods, .scaleSlaves n] ++ (wait_for_slaves env.waitOk n).2) ∨
    (env.scaleOk = true ∧ (wait_for_slaves env.waitOk n).1 = .ok () ∧
      env.masterPod = none ∧
      (run_test env n).2 =
        [.deleteSlavePods, .scaleSlaves n] ++ (wait_for_slaves env.waitOk n).2 ++
          [.getMasterPod]) ∨
    (env.scaleOk = true ∧ (wait_for_slaves env.waitOk n).1 = .ok () ∧
      env.masterPod.isSome = true ∧
      (run_test env n).2 =
        [.deleteSlavePods, .scaleSlaves n] ++ (wait_for_slaves env.waitOk n).2 ++
          [.getMasterPod, .listTestplans, .triggerRun]) := by
  unfold run_test
  by_cases hs : env.scaleOk
  · rcases hres : (wait_for_slaves env.waitOk n).1 with e | ⟨⟩
    · exact Or.inr (Or.inl ⟨hs, ⟨e, rfl⟩, by simp [hs, hres]⟩)
    · rcases hpod : env.masterPod with _ | p
      · exact Or.inr (Or.inr (Or.inl ⟨hs, rfl, rfl, by simp [hs, hres, hpod]⟩))
      · refine Or.inr (Or.inr (Or.inr ⟨hs, rfl, rfl, ?_⟩))
        by_cases hrc : env.triggerRc = 0 <;> simp [hs, hres, hpod, hrc]
  · refine Or.inl ⟨by simpa using hs, ?_⟩
    simp [hs]

theorem append_cons_eq_of_not_mem {α : Type} {a : α} :
    ∀ {p s q t : List α}, p ++ a :: q = s ++ a :: t → a ∉ p → a ∉ q →
      p = s ∧ q = t := by
  intro p
  induction p with
  | nil =>
    intro s q t h _ hq
    cases s with
    | nil => exact ⟨rfl, by simpa using h⟩
    | cons b s' =>
      simp only [List.nil_append, List.cons_append, List.cons.injEq] at h
      exact absurd (h.2 ▸ List.mem_append_right s' (List.mem_cons_self a t)) hq
  | cons x p' ih =>
    intro s q t h hp hq
    cases s with
    | nil =>
      simp only [List.cons_append, List.nil_append, List.cons.injEq] at h
      exact absurd (h.1 ▸ List.mem_cons_self x p') hp
    | cons b s' =>
      simp only [List.cons_append, List.cons.injEq] at h
      obtain ⟨rfl, h2⟩ := h
      obtain ⟨rfl, rfl⟩ := ih h2 (fun hm => hp (List.mem_cons_of_mem _ hm)) hq
      exact ⟨rfl, rfl⟩

/-- C1: for every shard count `n >= 1`, `run_test` scales the worker
statefulset to `n` replicas and waits for readiness of every slave pod
`jmeter-slaves-0 .. jmeter-slaves-(n-1)` strictly before it signals the
master pod to start: whenever the trigger command appears in the issued
command trace, the scale command and all `n` readiness waits precede it,
and every one of those waits succeeded. -/
theorem run_test_triggers_only_after_scale_and_waits
    (env : RunEnv) (n : Nat) (hn : 1 ≤ n) (pre post : List KEvent)
    (htr : (run_test env n).2 = pre ++ KEvent.triggerRun :: post) :
    KEvent.scaleSlaves n ∈ pre ∧
    (∀ i, i < n → KEvent.waitSlavePod i ∈ pre) ∧
    (∀ i, i < n → env.waitOk i = true) := by
  have htrig : KEvent.triggerRun ∈ (run_test env n).2 := by
    rw [htr]; exact List.mem_append_right _ (List.mem_cons_self _ _)
  have hnotwait : KEvent.triggerRun ∉ (wait_for_slaves env.waitOk n).2 := by
    intro hmem
    obtain ⟨j, hj⟩ := mem_waitForSlavesFrom_trace hmem
    exact KEvent.noConfusion hj
  rcases run_test_trace_cases env n with ⟨-, h2⟩ | ⟨-, -, h2⟩ | ⟨-, -, -, h2⟩ |
      ⟨-, hok, -, h2⟩
  · rw [h2] at htrig; simp at htrig
  · rw [h2] at htrig
    rcases List.mem_append.mp htrig with h | h
    · simp at h
    · exact absurd h hnotwait
  · rw [h2] at htrig
    rcases List.mem_append.mp htrig with h | h
    · rcases List.mem_append.mp h with h | h
      · simp at h
      · exact absurd h hnotwait
    · simp at h
  · rw [h2] at htr
    have hsplit :
        ([KEvent.deleteSlavePods, KEvent.scaleSlaves n] ++
            (wait_for_slaves env.waitOk n).2 ++
            [KEvent.getMasterPod, KEvent.listTestplans]) ++
          KEvent.triggerRun :: ([] : List KEvent) = pre ++ KEvent.triggerRun :: post := by
      rw [← htr]; simp
    obtain ⟨hpre, -⟩ := append_cons_eq_of_not_mem hsplit
      (by
        intro hmem
        rcases List.mem_append.mp hmem with h | h
        · rcases List.mem_append.mp h with h | h
          · simp at h
          · exact hnotwait h
        · simp at h)
      (List.not_mem_nil _)
    have hwtr : (wait_for_slaves env.waitOk n).2 =
        (List.range' 0 n).map KEvent.waitSlavePod := waitForSlavesFrom_ok_trace hok
    refine ⟨?_, ?_, ?_⟩
    · rw [← hpre]
      exact List.mem_append_left _ (List.mem_append_left _ (by simp))
    · intro i hi
      rw [← hpre]
      refine List.mem_append_left _ (List.mem_append_right _ ?_)
      rw [hwtr]
      exact List.mem_map_of_mem _ (List.mem_range'_1.mpr ⟨Nat.zero_le i, by omega⟩)
    · intro i hi
      exact waitForSlavesFrom_ok_waitOk hok i (Nat.zero_le i) (by omega)

/-- C1 witness: in an environment where every external call succeeds and
one shard is requested, the trace decomposes around the trigger command
with the scale and the single readiness wait before it. -/
theorem run_test_triggers_only_after_scale_and_waits_witness :
    KEvent.scaleSlaves 1 ∈
      [KEvent.deleteSlavePods, KEvent.scaleSlaves 1, KEvent.waitSlavePod 0,
        KEvent.getMasterPod, KEvent.listTestplans] ∧
    (∀ i, i < 1 → KEvent.waitSlavePod i ∈
      [KEvent.deleteSlavePods, KEvent.scaleSlaves 1, KEvent.waitSlavePod 0,
        KEvent.getMasterPod, KEvent.listTestplans]) ∧
    (∀ i, i < 1 →
      (RunEnv.mk true (fun _ => true) (some "jmeter-master-0") [] 0).waitOk i = true) :=
  run_test_triggers_only_after_scale_and_waits
    ⟨true, fun _ => true, some "jmeter-master-0", [], 0⟩ 1 (by decide)
    [KEvent.deleteSlavePods, KEvent.scaleSlaves 1, KEvent.waitSlavePod 0,
      KEvent.getMasterPod, KEvent.listTestplans] [] (by decide)

theorem countP_waitTrace_touches (w : Nat → Bool) (n : Nat) :
    List.countP Main.touchesStatusFile (wait_for_slaves w n).2 = 0 := by
  rw [List.countP_eq_zero]
  intro e he
  obtain ⟨j, rfl⟩ := mem_waitForSlavesFrom_trace he
  simp [Main.touchesStatusFile]

theorem countP_runTestTrace_touches (env : RunEnv) (n : Nat) :
    List.countP Main.touchesStatusFile (run_test env n).2 ≤ 1 := by
  rcases run_test_trace_cases env n with ⟨-, h2⟩ | ⟨-, -, h2⟩ | ⟨-, -, -, h2⟩ |
      ⟨-, -, -, h2⟩ <;>
    simp [h2, List.countP_append, List.countP_cons, countP_waitTrace_touches,
      Main.touchesStatusFile]

/-- C4 counterexample: with every external call succeeding, the single
`/test/run` request issues two commands touching `/tmp/test_status`: the
`rm -f` of `_reset_status` and the `echo RUNNING > /tmp/test_status` of
the trigger, so the status file is not accessed at most once. -/
theorem api_run_touches_status_file_twice :
    List.countP Main.touchesStatusFile
      (Main.api_run ⟨true, fun _ => true, some "jmeter-master-0", [], 0⟩ 1).2 = 2 ∧
    ¬ List.countP Main.touchesStatusFile
      (Main.api_run ⟨true, fun _ => true, some "jmeter-master-0", [], 0⟩ 1).2 ≤ 1 := by
  decide

/-- C4 amended: every `/test/run` request accesses the remote status file
at most twice (once deleted by `_reset_status`, once written by the
trigger command); no other command of the request touches it. -/
theorem api_run_status_file_accesses_at_most_two (env : RunEnv) (n : Nat) :
    List.countP Main.touchesStatusFile (Main.api_run env n).2 ≤ 2 := by
  have hrun := countP_runTestTrace_touches env n
  have hreset : List.countP Main.touchesStatusFile (Main._reset_status env) ≤ 1 := by
    rcases h : env.masterPod with _ | p <;>
      simp [Main._reset_status, h, List.countP_cons, Main.touchesStatusFile]
  have htr : (Main.api_run env n).2 = Main._reset_status env ++ (run_test env n).2 := by
    unfold Main.api_run
    rcases h : (run_test env n).1 with e | ⟨⟩ <;> simp [h]
  rw [htr, List.countP_append]
  omega

/-- C5 counterexample: a `kubectl get nodes` probe that fails at time 0 and
succeeds at time 5 makes `_wait_for_kube_ready` invoke the same external
probe twice within one operation and then return success, so a failing
external call neither fails the operation nor goes unretried. -/
theorem wait_for_kube_ready_retries_failed_probe :
    (_wait_for_kube_ready (fun t => decide (5 ≤ t)) 300).1 = .ok () ∧
    (_wait_for_kube_ready (fun t => decide (5 ≤ t)) 300).2 = [0, 5] ∧
    (fun t : Nat => decide (5 ≤ t)) 0 = false := by
  have h5 : kubeReadyLoop (fun t => decide (5 ≤ t)) 300 5 = (.ok (), [5]) := by
    rw [kubeReadyLoop.eq_def]; norm_num
  have h0 : kubeReadyLoop (fun t => decide (5 ≤ t)) 300 0 = (.ok (), [0, 5]) := by
    rw [kubeReadyLoop.eq_def]; norm_num [h5]
  refine ⟨?_, ?_, by decide⟩ <;> simp [_wait_for_kube_ready, h0]

theorem nodup_waitTrace (w : Nat → Bool) (n : Nat) :
    ((wait_for_slaves w n).2).Nodup := by
  obtain ⟨k, -, htr⟩ := waitForSlavesFrom_trace_shape w n 0
  rw [wait_for_slaves] at *
  rw [htr]
  exact (List.nodup_range' 0 k).map
    (fun a b h => by injection h)

/-- C5 amended: apart from the boto3 client configuration (up to
`aws_cfg_max_attempts = 4` attempts per cloud call) and the
cluster-readiness poll, which re-probes every 5 seconds until its
deadline, no operation repeats an external invocation: the command trace
of `run_test` never contains the same command twice. -/
theorem run_test_issues_distinct_commands (env : RunEnv) (n : Nat) :
    ((run_test env n).2).Nodup := by
  have hwn := nodup_waitTrace env.waitOk n
  have hmem : ∀ e ∈ (wait_for_slaves env.waitOk n).2, ∃ j, e = KEvent.waitSlavePod j :=
    fun e he => mem_waitForSlavesFrom_trace he
  rcases run_test_trace_cases env n with ⟨-, h2⟩ | ⟨-, -, h2⟩ | ⟨-, -, -, h2⟩ |
      ⟨-, -, -, h2⟩ <;> rw [h2]
  · simp
  · rw [List.nodup_append]
    refine ⟨by simp, hwn, ?_⟩
    intro a ha hb
    obtain ⟨j, rfl⟩ := hmem a hb
    simp at ha
  · rw [List.nodup_append, List.nodup_append]
    refine ⟨⟨by simp, hwn, ?_⟩, by simp, ?_⟩
    · intro a ha hb
      obtain ⟨j, rfl⟩ := hmem a hb
      simp at ha
    · intro a ha hb
      rcases List.mem_append.mp ha with h | h
      · simp at h
        rcases h with h | h <;> (subst h; simp at hb)
      · obtain ⟨j, rfl⟩ := hmem a h
        simp at hb
  · rw [List.nodup_append, List.nodup_append]
    refine ⟨⟨by simp, hwn, ?_⟩, by simp, ?_⟩
    · intro a ha hb
      obtain ⟨j, rfl⟩ := hmem a hb
      simp at ha
    · intro a ha hb
      rcases List.mem_append.mp ha with h | h
      · simp at h
        rcases h with h | h <;> (subst h; simp at hb)
      · obtain ⟨j, rfl⟩ := hmem a h
        simp at hb

theorem kubeReadyLoop_spec (probe : Nat → Bool) (timeout : Nat) :
    ∀ elapsed, ∃ k,
      (kubeReadyLoop probe timeout elapsed).2 = List.range' elapsed (k + 1) 5 ∧
      ((kubeReadyLoop probe timeout elapsed).1 = .ok () ∧
          probe (elapsed + 5 * k) = true ∨
        (kubeReadyLoop probe timeout elapsed).1 =
            .error "Timeout waiting for EKS cluster to be ready" ∧
          timeout < elapsed + 5 * k ∧ elapsed + 5 * k ≤ max elapsed (timeout + 5) ∧
          ∀ t ∈ (kubeReadyLoop probe timeout elapsed).2, probe t = false) := by
  refine kubeReadyLoop.induct probe timeout _ ?_ ?_ ?_
  · intro x hp
    rw [kubeReadyLoop.eq_def]
    simp only [hp, if_true]
    exact ⟨0, by simp [List.range'_succ], Or.inl ⟨by trivial, by simpa using hp⟩⟩
  · intro x hp ht
    rw [kubeReadyLoop.eq_def]
    simp only [Bool.not_eq_true] at hp
    simp only [hp, Bool.false_eq_true, if_false, if_pos ht]
    refine ⟨0, by simp [List.range'_succ], Or.inr ⟨by trivial, by omega, ?_, ?_⟩⟩
    · simpa using le_max_left x (timeout + 5)
    · intro t htm
      simp only [List.mem_singleton] at htm
      subst htm
      exact hp
  · intro x hp ht ih
    rw [kubeReadyLoop.eq_def]
    simp only [Bool.not_eq_true] at hp
    simp only [hp, Bool.false_eq_true, if_false, if_neg ht]
    obtain ⟨k, htr, hres⟩ := ih
    have hx : x ≤ timeout := by omega
    refine ⟨k + 1, ?_, ?_⟩
    · rw [List.range'_succ, htr]
    · rcases hres with ⟨hok, hpk⟩ | ⟨herr, hto, hbd, hall⟩
      · exact Or.inl ⟨hok, by
          have : x + 5 * (k + 1) = x + 5 + 5 * k := by ring
          rw [this]; exact hpk⟩
      · refine Or.inr ⟨herr, by omega, ?_, ?_⟩
        · rw [max_eq_right (by omega : x ≤ timeout + 5)] at *
          rw [max_eq_right (by omega : x + 5 ≤ timeout + 5)] at hbd
          omega
        · intro t htm
          rcases List.mem_cons.mp htm with rfl | htm'
          · exact hp
          · exact hall t htm'

/-- C6: `_wait_for_kube_ready` always terminates: the probe is invoked at
the fixed 5-second interval `0, 5, 10, ...` and the loop either returns
normally with the last probe succeeding, or raises
`TimeoutError("Timeout waiting for EKS cluster to be ready")` with every
probe failed, only once the elapsed time exceeds `timeout`, and at most
one interval past the deadline — it never loops past that point. -/
theorem wait_for_kube_ready_terminates (probe : Nat → Bool) (timeout : Nat) :
    ∃ k,
      (_wait_for_kube_ready probe timeout).2 = List.range' 0 (k + 1) 5 ∧
      ((_wait_for_kube_ready probe timeout).1 = .ok () ∧ probe (5 * k) = true ∨
        (_wait_for_kube_ready probe timeout).1 =
            .error "Timeout waiting for EKS cluster to be ready" ∧
          timeout < 5 * k ∧ 5 * k ≤ timeout + 5 ∧
          ∀ t ∈ (_wait_for_kube_ready probe timeout).2, probe t = false) := by
  obtain ⟨k, htr, hres⟩ := kubeReadyLoop_spec probe timeout 0
  refine ⟨k, by simpa [_wait_for_kube_ready] using htr, ?_⟩
  rcases hres with ⟨hok, hp⟩ | ⟨herr, hto, hbd, hall⟩
  · exact Or.inl ⟨hok, by simpa using hp⟩
  · refine Or.inr ⟨herr, by omega, ?_, by simpa [_wait_for_kube_ready] using hall⟩
    rw [max_eq_right (by omega : 0 ≤ timeout + 5)] at hbd
    omega

end EKSJMeterManager

namespace Main

open EKSJMeterManager

/-- C2: whenever the status file, if present, holds one of the
convention's values, every status read stays inside
`{RUNNING, FINISHED, ERROR, UNKNOWN}`: `get_status` returns `UNKNOWN`
when the master pod or the file is absent and the (stripped) file content
otherwise, and `/test/status` only ever reports a value of the set — its
fallback for a missing file is `RUNNING`, one of the four. -/
theorem status_reads_stay_in_convention (env : StatusEnv)
    (hconv : ∀ c, env.statusFile = some c → strip c ∈ statusValues) :
    get_status env ∈ statusValues ∧
    (∀ s, api_status env = .ok s → s ∈ statusValues) ∧
    (env.masterPod = none → get_status env = str "UNKNOWN") ∧
    (env.statusFile = none → get_status env = str "UNKNOWN") ∧
    (∀ p c, env.masterPod = some p → env.statusFile = some c →
      get_status env = strip c) ∧
    (∀ p, env.masterPod = some p → env.statusFile = none →
      api_status env = .ok (str "RUNNING")) := by
  have hrun : strip (str "RUNNING" ++ str "\n") = str "RUNNING" := by decide
  have hunk : strip (str "UNKNOWN" ++ str "\n") = str "UNKNOWN" := by decide
  rcases hpod : env.masterPod with _ | p
  · rcases hfile : env.statusFile with _ | c <;>
      simp [get_status, api_status, hpod, hfile, statusValues, str]
  · rcases hfile : env.statusFile with _ | c
    · simp only [get_status, api_status, hpod, hfile, catStatusOut, hrun, hunk]
      refine ⟨by simp [statusValues], ?_, ?_, ?_, ?_, ?_⟩ <;> simp [statusValues]
    · have hc := hconv c hfile
      simp only [get_status, api_status, hpod, hfile, catStatusOut]
      refine ⟨hc, ?_, by simp, by simp, ?_, by simp⟩
      · intro s hs
        rw [Except.ok.injEq] at hs
        exact hs ▸ hc
      · intro p' c' _ hc'
        rw [Option.some.injEq] at hc'
        rw [hc']

/-- C2 witness: a reachable state (master pod present, file holding
`FINISHED`) satisfying the convention, on which both reads evaluate
inside the set. -/
theorem status_reads_stay_in_convention_witness :
    get_status ⟨some "jmeter-master-0", some (str "FINISHED")⟩ ∈ statusValues ∧
    (∀ s, api_status ⟨some "jmeter-master-0", some (str "FINISHED")⟩ = .ok s →
      s ∈ statusValues) :=
  have h := status_reads_stay_in_convention
    ⟨some "jmeter-master-0", some (str "FINISHED")⟩
    (fun c hc => by
      rw [Option.some.injEq] at hc
      subst hc
      decide)
  ⟨h.1, h.2.1⟩

/-- C3 counterexample: the `/grafana/url` endpoint does replace the raw
error message with a different fixed string — a `kubectl` failure `boom`
is reported as 500 `Grafana not ready yet`, not as 500 `boom`. -/
theorem grafana_replaces_raw_error_message :
    grafana (.error "boom") = .error (500, "Grafana not ready yet") ∧
    grafana (.error "boom") ≠ .error (500, "boom") := by
  constructor
  · rfl
  · intro h
    simp only [grafana, Except.error.injEq, Prod.mk.injEq] at h
    exact absurd h.2 (by decide)

/-- C3 amended: every external-tool failure is either absorbed into an
empty/default value (`list_regions`, `list_instance_types`, `list_amis`
return `[]`, `get_instance_info` returns `None`) or re-raised as a 500
whose detail is the raw message — except `/grafana/url`, whose bare
`except:` replaces the message with the fixed string
`Grafana not ready yet`. -/
theorem external_failures_empty_or_500 :
    (∀ e, AwsUtils.list_regions (.error e) = []) ∧
    (∀ e, AwsUtils.list_instance_types (.error e) = []) ∧
    (∀ e, AwsUtils.list_amis (.error e) = []) ∧
    (∀ e t, AwsUtils.get_instance_info t (.error e) = none) ∧
    (∀ e r t m, r ≠ [] → t ≠ [] →
      api_eks_create (some r) (some t) ⟨.error e, m⟩ = .error (500, e)) ∧
    (∀ e r t, r ≠ [] → t ≠ [] →
      api_eks_create (some r) (some t) ⟨.ok (), .error e⟩ = .error (500, e)) ∧
    (∀ e, grafana (.error e) = .error (500, "Grafana not ready yet")) := by
  refine ⟨fun e => rfl, fun e => rfl, fun e => rfl, fun e t => rfl, ?_, ?_, fun e => rfl⟩
  · intro e r t m hr ht
    simp [api_eks_create, truthy, List.isEmpty_iff, hr, ht]
  · intro e r t hr ht
    simp [api_eks_create, truthy, List.isEmpty_iff, hr, ht]

/-- C3 amended witness: concrete failing create and grafana calls. -/
theorem external_failures_empty_or_500_witness :
    api_eks_create (some (str "us-east-1")) (some (str "t3.large"))
        ⟨.error "eksctl exploded", .ok ()⟩ = .error (500, "eksctl exploded") ∧
    grafana (.error "no ingress") = .error (500, "Grafana not ready yet") :=
  ⟨external_failures_empty_or_500.2.2.2.2.1 "eksctl exploded"
      (str "us-east-1") (str "t3.large") (.ok ()) (by decide) (by decide),
    external_failures_empty_or_500.2.2.2.2.2.2 "no ingress"⟩

end Main

namespace AwsUtils

/-- C9: `detect_os_family` is total with codomain
`{AmazonLinux2023, Unknown}`: it returns `Unknown` whenever the image
lookup fails, and otherwise returns `AmazonLinux2023` exactly when the
lower-cased concatenation of the image's name and description contains
one of `amazon-eks-node`, `amazon linux 2023`, `al2023`. -/
theorem detect_os_family_total (resp : Except String ImageDesc) :
    (detect_os_family resp = str "AmazonLinux2023" ∨
      detect_os_family resp = str "Unknown") ∧
    (∀ e, resp = .error e → detect_os_family resp = str "Unknown") ∧
    (∀ img, resp = .ok img →
      (detect_os_family resp = str "AmazonLinux2023" ↔
        (str "amazon-eks-node" <:+: osText img ∨
          str "amazon linux 2023" <:+: osText img ∨
          str "al2023" <:+: osText img))) := by
  rcases resp with e | img
  · exact ⟨Or.inr rfl, fun _ _ => rfl, fun img h => Except.noConfusion h⟩
  · refine ⟨?_, fun e h => Except.noConfusion h, ?_⟩
    · by_cases hc : (decide (str "amazon-eks-node" <:+: osText img)
          || decide (str "amazon linux 2023" <:+: osText img)
          || decide (str "al2023" <:+: osText img)) = true
      · exact Or.inl (by simp only [detect_os_family, if_pos hc])
      · exact Or.inr (by simp only [detect_os_family, if_neg hc])
    · intro img' himg
      rw [Except.ok.injEq] at himg
      subst himg
      by_cases hc : (decide (str "amazon-eks-node" <:+: osText img)
          || decide (str "amazon linux 2023" <:+: osText img)
          || decide (str "al2023" <:+: osText img)) = true
      · simp only [detect_os_family, if_pos hc]
        simp only [Bool.or_eq_true, decide_eq_true_eq] at hc
        exact ⟨fun _ => by tauto, fun _ => by trivial⟩
      · simp only [detect_os_family, if_neg hc]
        simp only [Bool.or_eq_true, decide_eq_true_eq, not_or] at hc
        constructor
        · intro habs
          exact absurd habs (by decide)
        · intro h
          rcases h with h | h | h
          · exact absurd h hc.1.1
          · exact absurd h hc.1.2
          · exact absurd h hc.2

/-- C9 witness: an EKS worker image name is classified as
`AmazonLinux2023`, via the characterization at a concrete lookup result. -/
theorem detect_os_family_total_witness :
    detect_os_family (.ok ⟨str "amazon-eks-node-al2023-x86_64", str ""⟩) =
        str "AmazonLinux2023" ↔
      (str "amazon-eks-node" <:+:
          osText ⟨str "amazon-eks-node-al2023-x86_64", str ""⟩ ∨
        str "amazon linux 2023" <:+:
          osText ⟨str "amazon-eks-node-al2023-x86_64", str ""⟩ ∨
        str "al2023" <:+:
          osText ⟨str "amazon-eks-node-al2023-x86_64", str ""⟩) :=
  (detect_os_family_total (.ok ⟨str "amazon-eks-node-al2023-x86_64", str ""⟩)).2.2
    ⟨str "amazon-eks-node-al2023-x86_64", str ""⟩ rfl

end AwsUtils

namespace AwsUtils

theorem amiLe_trans : ∀ a b c : AmiImage,
    strLe b.creationDate a.creationDate = true →
    strLe c.creationDate b.creationDate = true →
    strLe c.creationDate a.creationDate = true :=
  fun _ _ _ hab hbc => strLe_trans hbc hab

theorem amiLe_total : ∀ a b : AmiImage,
    (strLe b.creationDate a.creationDate || strLe a.creationDate b.creationDate) = true :=
  fun a b => strLe_total b.creationDate a.creationDate

/-- C8: `list_amis` keeps at most 50 entries, ordered from the newest
creation date to the oldest, and the retained images are the (up to) 50
most recent of the response: every dropped image's creation date is at
most every kept image's creation date. -/
theorem list_amis_keeps_newest_50 (images : List AmiImage) :
    (list_amis (.ok images)).length ≤ 50 ∧
    (list_amis (.ok images)).Pairwise (fun a b => strLe b.date a.date = true) ∧
    ∃ kept rest : List AmiImage,
      (kept ++ rest).Perm images ∧
      list_amis (.ok images) = kept.map amiEntryOf ∧
      ∀ a ∈ rest, ∀ b ∈ kept, strLe a.creationDate b.creationDate = true := by
  have hperm := List.mergeSort_perm images
    (fun a b => strLe b.creationDate a.creationDate)
  have hsort := List.sorted_mergeSort amiLe_trans amiLe_total images
  set sorted := images.mergeSort (fun a b => strLe b.creationDate a.creationDate)
    with hsrt
  have hsplit : sorted.take 50 ++ sorted.drop 50 = sorted := List.take_append_drop _ _
  have hcross : ∀ b ∈ sorted.take 50, ∀ a ∈ sorted.drop 50,
      strLe a.creationDate b.creationDate = true := by
    have := List.pairwise_append.mp (hsplit ▸ hsort)
    exact this.2.2
  refine ⟨?_, ?_, sorted.take 50, sorted.drop 50, by rw [hsplit]; exact hperm, rfl, ?_⟩
  · simpa [list_amis] using List.length_take_le 50 sorted
  · show ((sorted.take 50).map amiEntryOf).Pairwise _
    refine List.Pairwise.map _ (fun a b h => h) ?_
    exact List.Pairwise.sublist (List.take_sublist 50 sorted) hsort
  · exact fun a ha b hb => hcross b hb a ha

end AwsUtils

namespace AwsUtils

theorem flatMap_perm_congr {α β : Type} (keys : List β) (f g : β → List α)
    (h : ∀ k ∈ keys, (f k).Perm (g k)) :
    (keys.flatMap f).Perm (keys.flatMap g) := by
  induction keys with
  | nil => exact List.Perm.refl _
  | cons k ks ih =>
    simp only [List.flatMap_cons]
    exact (h k (List.mem_cons_self k ks)).append
      (ih (fun k' hk' => h k' (List.mem_cons_of_mem _ hk')))

theorem flatMap_filter_key_perm {α β : Type} [BEq β] [LawfulBEq β] (key : α → β) :
    ∀ (keys : List β) (l : List α), keys.Nodup → (∀ a ∈ l, key a ∈ keys) →
      (keys.flatMap (fun k => l.filter (fun a => key a == k))).Perm l := by
  intro keys
  induction keys with
  | nil =>
    intro l _ hcov
    cases l with
    | nil => exact List.Perm.refl _
    | cons a t => exact absurd (hcov a (List.mem_cons_self a t)) (List.not_mem_nil _)
  | cons k ks ih =>
    intro l hnd hcov
    have hk : k ∉ ks := (List.nodup_cons.mp hnd).1
    have hks : ks.Nodup := (List.nodup_cons.mp hnd).2
    simp only [List.flatMap_cons]
    have hcongr : ∀ k' ∈ ks,
        l.filter (fun a => key a == k') =
          (l.filter (fun a => !(key a == k))).filter (fun a => key a == k') := by
      intro k' hk'
      rw [List.filter_filter]
      apply List.filter_congr
      intro a _
      by_cases ha : key a = k'
      · have hkk : k' ≠ k := fun h => hk (h ▸ hk')
        simp [ha, hkk]
      · simp [ha]
    have hflat : ks.flatMap (fun k' => l.filter (fun a => key a == k')) =
        ks.flatMap (fun k' => (l.filter (fun a => !(key a == k))).filter
          (fun a => key a == k')) := by
      apply List.flatMap_congr
      intro k' hk'
      exact hcongr k' hk'
    rw [hflat]
    have hcov' : ∀ a ∈ l.filter (fun a => !(key a == k)), key a ∈ ks := by
      intro a ha
      obtain ⟨hal, hane⟩ := List.mem_filter.mp ha
      have := hcov a hal
      rcases List.mem_cons.mp this with h | h
      · simp [h] at hane
      · exact h
    have hrec := ih (l.filter (fun a => !(key a == k))) hks hcov'
    exact (List.Perm.append_left _ hrec).trans (List.filter_append_perm _ l)

theorem pairwise_flatMap {α β : Type} (R : α → α → Prop) (keys : List β)
    (f : β → List α)
    (hkeys : keys.Pairwise (fun k₁ k₂ => ∀ a ∈ f k₁, ∀ b ∈ f k₂, R a b))
    (hin : ∀ k ∈ keys, (f k).Pairwise R) :
    (keys.flatMap f).Pairwise R := by
  induction keys with
  | nil => exact List.Pairwise.nil
  | cons k ks ih =>
    simp only [List.flatMap_cons]
    rw [List.pairwise_append]
    obtain ⟨hhead, htail⟩ := List.pairwise_cons.mp hkeys
    refine ⟨hin k (List.mem_cons_self k ks), ih htail
      (fun k' hk' => hin k' (List.mem_cons_of_mem _ hk')), ?_⟩
    intro a ha b hb
    obtain ⟨k', hk', hbk'⟩ := List.mem_flatMap.mp hb
    exact hhead k' hk' a ha b hbk'

theorem mem_sortByType_family {k : Str} {items : List InstanceItem} {a : InstanceItem}
    (ha : a ∈ sortByType (items.filter (fun it => family it.itype == k))) :
    family a.itype = k := by
  have := (List.mergeSort_perm _ _).mem_iff.mp ha
  exact beq_iff_eq.mp (List.mem_filter.mp this).2

theorem sortByType_sorted (l : List InstanceItem) :
    (sortByType l).Pairwise (fun a b => strLe a.itype b.itype = true) := by
  unfold sortByType
  exact @List.sorted_mergeSort _ (fun a b => strLe a.itype b.itype)
    (fun _ _ _ hab hbc => by exact strLe_trans hab hbc)
    (fun a b => by exact strLe_total a.itype b.itype) l

/-- C7: `list_instance_types` emits every input item exactly once, grouped
by the leading alphabetic family prefix of the type name: items of the
same family appear in ascending order of the full type string, and items
of different families appear in ascending order of their families. -/
theorem list_instance_types_grouped_sorted (items : List InstanceItem) :
    (list_instance_types (.ok items)).Perm items ∧
    (list_instance_types (.ok items)).Pairwise (fun a b =>
      (family a.itype = family b.itype ∧ strLe a.itype b.itype = true) ∨
      (family a.itype ≠ family b.itype ∧
        strLe (family a.itype) (family b.itype) = true)) := by
  have hkeysNodup : (sortKeys (groupKeys items)).Nodup :=
    (List.mergeSort_perm _ _).symm.nodup (List.nodup_dedup _)
  have hkeysSorted : (sortKeys (groupKeys items)).Pairwise
      (fun k₁ k₂ => strLe k₁ k₂ = true) := by
    unfold sortKeys
    exact @List.sorted_mergeSort _ strLe
      (fun _ _ _ hab hbc => strLe_trans hab hbc) strLe_total _
  have hkeysStrict : (sortKeys (groupKeys items)).Pairwise
      (fun k₁ k₂ => strLe k₁ k₂ = true ∧ k₁ ≠ k₂) :=
    hkeysSorted.and hkeysNodup
  have hcov : ∀ a ∈ items, family a.itype ∈ sortKeys (groupKeys items) := by
    intro a ha
    exact (List.mergeSort_perm _ _).symm.mem_iff.mp
      (List.mem_dedup.mpr (List.mem_map_of_mem _ ha))
  constructor
  · show ((sortKeys (groupKeys items)).flatMap
      (fun fam => sortByType (items.filter (fun it => family it.itype == fam)))).Perm items
    refine List.Perm.trans ?_
      (flatMap_filter_key_perm (fun it => family it.itype)
        (sortKeys (groupKeys items)) items hkeysNodup hcov)
    exact flatMap_perm_congr _ _ _ (fun k _ => List.mergeSort_perm _ _)
  · show ((sortKeys (groupKeys items)).flatMap
      (fun fam => sortByType (items.filter (fun it => family it.itype == fam)))).Pairwise _
    refine pairwise_flatMap _ _ _ ?_ ?_
    · refine hkeysStrict.imp ?_
      intro k₁ k₂ hk a ha b hb
      rw [mem_sortByType_family ha, mem_sortByType_family hb]
      exact Or.inr ⟨hk.2, hk.1⟩
    · intro k _
      refine (sortByType_sorted _).imp_of_mem ?_
      intro a b ha hb hr
      exact Or.inl ⟨by rw [mem_sortByType_family ha, mem_sortByType_family hb], hr⟩

end AwsUtils

namespace EKSJMeterManager

theorem mem_filterMap_guard {α β : Type} (p : α → Bool) (F : α → β) (l : List α)
    (x : α) (ns : β) :
    (x, ns) ∈ l.filterMap (fun a => if p a then some (a, F a) else none) ↔
      x ∈ l ∧ p x = true ∧ ns = F x := by
  rw [List.mem_filterMap]
  constructor
  · rintro ⟨a, ha, hif⟩
    by_cases hp : p a
    · rw [if_pos hp, Option.some.injEq, Prod.mk.injEq] at hif
      obtain ⟨rfl, rfl⟩ := hif
      exact ⟨ha, hp, rfl⟩
    · rw [if_neg hp] at hif
      cases hif
  · rintro ⟨hx, hp, rfl⟩
    exact ⟨x, hx, by rw [if_pos hp]⟩

theorem countP_filterMap_guard {α β : Type} [DecidableEq α] (p : α → Bool)
    (F : α → β) (x : α) :
    ∀ l : List α, l.Nodup →
      List.countP (fun y => decide (y.1 = x))
          (l.filterMap (fun a => if p a then some (a, F a) else none)) =
        if x ∈ l ∧ p x = true then 1 else 0 := by
  intro l
  induction l with
  | nil => intro _; simp
  | cons a t ih =>
    intro hnd
    obtain ⟨hat, hnt⟩ := List.nodup_cons.mp hnd
    rw [List.filterMap_cons]
    by_cases hp : p a
    · rw [if_pos hp, List.countP_cons, ih hnt]
      by_cases hax : x = a
      · subst hax
        have hxt : x ∉ t := hat
        simp [hxt, hp]
      · simp only [List.mem_cons]
        have : (decide ((a, F a).1 = x)) = false := by
          simp only [decide_eq_false_iff_not]
          exact fun h => hax h.symm
        rw [this]
        by_cases hxt : x ∈ t <;> simp [hxt, hax, hp]
    · rw [if_neg hp, ih hnt]
      by_cases hax : x = a
      · subst hax
        simp [hp, hat]
      · simp only [List.mem_cons]
        by_cases hxt : x ∈ t <;> simp [hxt, hax]

theorem route_eq_spec (jm mo : Str) (f : Str) :
    (if _is_cluster_scoped_template f then none
      else if (str "monitor-").isPrefixOf f then some mo else some jm) =
    (if stripTemplateSuffix (basename f) = str "storageclass" ∨
        stripTemplateSuffix (basename f) = str "storageclass-and-pvcs"
      then none
      else if (str "monitor-").isPrefixOf f then some mo else some jm) := by
  by_cases hc : stripTemplateSuffix (basename f) = str "storageclass" ∨
      stripTemplateSuffix (basename f) = str "storageclass-and-pvcs"
  · rw [if_pos hc]
    have : _is_cluster_scoped_template f = true := by
      unfold _is_cluster_scoped_template
      rcases hc with h | h <;> simp [h]
    rw [if_pos this]
  · rw [if_neg hc]
    have : _is_cluster_scoped_template f = false := by
      unfold _is_cluster_scoped_template
      rw [not_or] at hc
      simp [hc.1, hc.2]
    rw [if_neg (by simp [this])]

/-- C10: `apply_jmeter_manifests` routes every existing template to
exactly one namespace determined by its name — cluster-scoped (no
namespace) when the base name with its `.yaml`/`.yml`/`.j2` suffixes
stripped is `storageclass` or `storageclass-and-pvcs`, the monitoring
namespace when the file name starts with `monitor-`, and the jmeter
namespace otherwise — and a template whose file does not exist is skipped
without error (no apply is issued for it). -/
theorem apply_jmeter_manifests_routes_by_name
    (jm mo : Str) (tplExists : Str → Bool) (f : Str) (hf : f ∈ template_files) :
    (tplExists f = false → ∀ ns, (f, ns) ∉ apply_jmeter_manifests jm mo tplExists) ∧
    (tplExists f = true →
      (f, if stripTemplateSuffix (basename f) = str "storageclass" ∨
            stripTemplateSuffix (basename f) = str "storageclass-and-pvcs"
          then none
          else if (str "monitor-").isPrefixOf f then some mo else some jm)
        ∈ apply_jmeter_manifests jm mo tplExists) ∧
    (∀ ns, (f, ns) ∈ apply_jmeter_manifests jm mo tplExists →
      tplExists f = true ∧
      ns = (if stripTemplateSuffix (basename f) = str "storageclass" ∨
              stripTemplateSuffix (basename f) = str "storageclass-and-pvcs"
            then none
            else if (str "monitor-").isPrefixOf f then some mo else some jm)) ∧
    List.countP (fun y => decide (y.1 = f))
        (apply_jmeter_manifests jm mo tplExists) =
      (if tplExists f = true then 1 else 0) := by
  have hmem := mem_filterMap_guard tplExists
    (fun f => if _is_cluster_scoped_template f then none
      else if (str "monitor-").isPrefixOf f then some mo else some jm)
    template_files
  have hnd : template_files.Nodup := by decide
  refine ⟨?_, ?_, ?_, ?_⟩
  · intro hex ns hmem'
    have := ((hmem f ns).mp hmem').2.1
    rw [hex] at this
    cases this
  · intro hex
    exact (hmem f _).mpr ⟨hf, hex, (route_eq_spec jm mo f).symm⟩
  · intro ns hmem'
    obtain ⟨-, hex, hns⟩ := (hmem f ns).mp hmem'
    exact ⟨hex, hns.trans (route_eq_spec jm mo f)⟩
  · unfold apply_jmeter_manifests
    rw [countP_filterMap_guard tplExists
      (fun f => if _is_cluster_scoped_template f then none
        else if (str "monitor-").isPrefixOf f then some mo else some jm)
      f template_files hnd]
    by_cases hex : tplExists f = true <;> simp [hf, hex]

/-- C10 witness: with every template present, `monitor-influx.yaml.j2` is
applied exactly once, to the monitoring namespace. -/
theorem apply_jmeter_manifests_routes_by_name_witness :
    (str "monitor-influx.yaml.j2",
      if stripTemplateSuffix (basename (str "monitor-influx.yaml.j2")) =
            str "storageclass" ∨
          stripTemplateSuffix (basename (str "monitor-influx.yaml.j2")) =
            str "storageclass-and-pvcs"
        then none
        else if (str "monitor-").isPrefixOf (str "monitor-influx.yaml.j2")
          then some (str "monitoring")
          else some (str "jmeter"))
      ∈ apply_jmeter_manifests (str "jmeter") (str "monitoring") (fun _ => true) :=
  (apply_jmeter_manifests_routes_by_name (str "jmeter") (str "monitoring")
    (fun _ => true) (str "monitor-influx.yaml.j2") (by decide)).2.1 rfl

end EKSJMeterManager
